import Mathlib

/-!
# Wardrobe Studio — verification of the persistence core

Shallow embedding of the repository's persistence layer and the app-level
operations built on it:

* `Storage` (src/unnamed/part_000, the IndexedDB + localStorage module):
  item/image/plan/outfit/section/shopping/trash collections, settings
  key-value access, `emptyTrash`, `exportAllData`, `importAllData`.
* `App` (src/js/app.js): `deleteItem`, `restoreItem`, `deleteSection`,
  `deleteShoppingItem`, `addToWeeklyFromModal`.
* `DragDrop.addToWeeklyOutfit` (src/unnamed/part_002).
* `Weather.fetchWeather` (src/unnamed/part_000, weather module).

IndexedDB object stores are modelled as lists of records; the store key is
the record's keyPath field (`id`, or `day` for the weekly plan), exactly as
IndexedDB extracts it.  localStorage is a list of string/string pairs.
JavaScript values flowing through `localStorage` + `JSON.parse` /
`JSON.stringify` are modelled by the `JSValue` type below.
-/

/-- Model of a JavaScript value as it appears in this code base: the
JSON-representable values plus `undefined` (produced by missing-property
access).  Numbers are modelled as integers; every number the repository
stores in settings (timestamps, cache ages) is integral. -/
inductive JSValue where
  | null
  | undefined
  | bool (b : Bool)
  | num (n : Int)
  | str (s : String)
  | arr (elems : List JSValue)
  | obj (fields : List (String × JSValue))

/-- JavaScript truthiness of a value (`if (v)`). -/
def jsTruthy : JSValue → Bool
  | .null => false
  | .undefined => false
  | .bool b => b
  | .num n => n != 0
  | .str s => !(s == "")
  | .arr _ => true
  | .obj _ => true

/-- Property access `v.k`: a missing property, or access on a non-object,
yields `undefined`. -/
def jsField (v : JSValue) (k : String) : JSValue :=
  match v with
  | .obj fields =>
    match fields.find? (fun p => p.1 == k) with
    | some p => p.2
    | none => .undefined
  | _ => .undefined

/-- JavaScript string coercion `String(v)` for the primitive values
(`localStorage.setItem` coerces its argument).  `setSetting` routes every
`typeof v === 'object'` value to `JSON.stringify` instead, so the `arr` and
`obj` cases below are never reached by the embedded code. -/
def jsToString : JSValue → String
  | .null => "null"
  | .undefined => "undefined"
  | .bool true => "true"
  | .bool false => "false"
  | .num n => toString n
  | .str s => s
  | .arr _ => ""
  | .obj _ => ""

/-- JavaScript `typeof v === 'object'` (true for `null`, arrays and plain
objects). -/
def jsTypeofObject : JSValue → Bool
  | .null => true
  | .arr _ => true
  | .obj _ => true
  | _ => false

mutual

/-- Modelled from the platform: `JSON.stringify`, restricted to the fragment
this repository stores (no string escaping — the stored strings contain no
quotes or backslashes — and integral numbers). -/
def jsonStringify : JSValue → String
  | .null => "null"
  | .undefined => "null"
  | .bool true => "true"
  | .bool false => "false"
  | .num n => toString n
  | .str s => "\"" ++ s ++ "\""
  | .arr es => "[" ++ stringifyElems es ++ "]"
  | .obj fs => "\x7b" ++ stringifyFields fs ++ "\x7d"

/-- Comma-separated rendering of array elements. -/
def stringifyElems : List JSValue → String
  | [] => ""
  | [e] => jsonStringify e
  | e :: e' :: es => jsonStringify e ++ "," ++ stringifyElems (e' :: es)

/-- Comma-separated rendering of object fields. -/
def stringifyFields : List (String × JSValue) → String
  | [] => ""
  | [(k, v)] => "\"" ++ k ++ "\":" ++ jsonStringify v
  | (k, v) :: f :: fs => "\"" ++ k ++ "\":" ++ jsonStringify v ++ "," ++ stringifyFields (f :: fs)

end

/-- Skip JSON whitespace. -/
def skipWs : List Char → List Char
  | c :: cs => if c = ' ' ∨ c = '\t' ∨ c = '\n' ∨ c = '\r' then skipWs cs else c :: cs
  | [] => []

/-- Split a leading run of decimal digits from the input. -/
def takeDigits : List Char → List Char × List Char
  | c :: cs =>
    if c.isDigit then
      let (ds, r) := takeDigits cs
      (c :: ds, r)
    else ([], c :: cs)
  | [] => ([], [])

/-- Numeric value of a digit run. -/
def digitsToNat (ds : List Char) : Nat :=
  ds.foldl (fun n c => n * 10 + (c.toNat - 48)) 0

/-- Parse the remainder of a JSON string literal (after the opening quote,
up to the closing quote).  Escapes are outside the modelled fragment. -/
def parseStrChars : List Char → Option (String × List Char)
  | [] => none
  | c :: cs =>
    if c = '"' then some ("", cs)
    else if c = '\\' then none
    else
      match parseStrChars cs with
      | some (s, r) => some (c.toString ++ s, r)
      | none => none

mutual

/-- Modelled from the platform: `JSON.parse`, restricted to the fragment
this repository stores (integral numbers, strings without escapes).  A
failure (`none`) corresponds to `JSON.parse` throwing.  The `Nat` argument
is recursion fuel; callers supply more fuel than the input length. -/
def parseVal : Nat → List Char → Option (JSValue × List Char)
  | 0, _ => none
  | fuel + 1, cs =>
    match skipWs cs with
    | [] => none
    | 'n' :: 'u' :: 'l' :: 'l' :: r => some (.null, r)
    | 't' :: 'r' :: 'u' :: 'e' :: r => some (.bool true, r)
    | 'f' :: 'a' :: 'l' :: 's' :: 'e' :: r => some (.bool false, r)
    | '"' :: r =>
      match parseStrChars r with
      | some (s, r') => some (.str s, r')
      | none => none
    | '-' :: r =>
      match takeDigits r with
      | ([], _) => none
      | (ds, r') => some (.num (-(digitsToNat ds : Int)), r')
    | '[' :: r => parseElems fuel r
    | '\x7b' :: r => parseFields fuel r
    | c :: r =>
      if c.isDigit then
        let (ds, r') := takeDigits (c :: r)
        some (.num (digitsToNat ds), r')
      else none

/-- Parse the elements of a JSON array (after the opening bracket). -/
def parseElems : Nat → List Char → Option (JSValue × List Char)
  | 0, _ => none
  | fuel + 1, cs =>
    match skipWs cs with
    | ']' :: r => some (.arr [], r)
    | cs' =>
      match parseVal fuel cs' with
      | none => none
      | some (v, r) =>
        match skipWs r with
        | ']' :: r' => some (.arr [v], r')
        | ',' :: r' =>
          match parseElems fuel r' with
          | some (.arr vs, r'') => some (.arr (v :: vs), r'')
          | _ => none
        | _ => none

/-- Parse the fields of a JSON object (after the opening brace). -/
def parseFields : Nat → List Char → Option (JSValue × List Char)
  | 0, _ => none
  | fuel + 1, cs =>
    match skipWs cs with
    | '\x7d' :: r => some (.obj [], r)
    | '"' :: r =>
      match parseStrChars r with
      | none => none
      | some (k, r1) =>
        match skipWs r1 with
        | ':' :: r2 =>
          match parseVal fuel r2 with
          | none => none
          | some (v, r3) =>
            match skipWs r3 with
            | '\x7d' :: r4 => some (.obj [(k, v)], r4)
            | ',' :: r4 =>
              match parseFields fuel r4 with
              | some (.obj fs, r5) => some (.obj ((k, v) :: fs), r5)
              | _ => none
            | _ => none
        | _ => none
    | _ => none

end

/-- Modelled from the platform: `JSON.parse` on a whole string; trailing
garbage is a parse error. -/
def jsonParse (s : String) : Option JSValue :=
  match parseVal (s.length + 1) s.data with
  | some (v, rest) =>
    match skipWs rest with
    | [] => some v
    | _ => none
  | none => none

/-!
## Data model

Records of the seven IndexedDB object stores (src/unnamed/part_000,
`Storage.init`).  A JavaScript record is an open object; the structures
below carry exactly the fields the embedded code reads or writes, with a
missing field modelled by `none` (for the optional bookkeeping fields) or
`false` (for the boolean flags, whose uses do not distinguish `undefined`
from `false`).  IndexedDB keys are the keyPath field of the record (`id`,
or `day` for the weekly plan); ids are modelled as naturals. -/

/-- A wardrobe item (collection `items`; also the record type of `trash`). -/
structure Item where
  id : Nat
  imageId : Option Nat
  category : String
  favorite : Bool
  laundry : Bool
  dateAdded : String
  deleted : Bool
  deletedDate : Option String
  originalCategory : Option String
deriving DecidableEq

/-- An image record (collection `images`): `Storage.saveImage` stores
`\x7bid, data\x7d`. -/
structure Image where
  id : Nat
  data : String
deriving DecidableEq

/-- A weekly plan day (collection `weeklyPlan`, keyed by `day`). -/
structure DayPlan where
  day : String
  type : String
  items : List Nat
  notes : String
deriving DecidableEq

/-- A saved outfit (collection `savedOutfits`). -/
structure Outfit where
  id : Nat
  items : List Nat
  notes : String
  date : String
deriving DecidableEq

/-- A custom section (collection `customSections`).  `App.createNewSection`
stores `\x7bname, items: []\x7d`. -/
structure CustomSection where
  id : Nat
  name : String
  items : List Nat
deriving DecidableEq

/-- A shopping-list entry (collection `shoppingList`). -/
structure ShopItem where
  id : Nat
  name : String
  desc : String
  price : String
  imageId : Option Nat
deriving DecidableEq

/-- localStorage: a flat string-keyed map of strings. -/
abbrev SettingsStore := List (String × String)

/-- The whole persisted state: the seven IndexedDB object stores plus
localStorage (`settings`). -/
structure Store where
  items : List Item
  images : List Image
  weeklyPlan : List DayPlan
  savedOutfits : List Outfit
  customSections : List CustomSection
  shoppingList : List ShopItem
  trash : List Item
  settings : SettingsStore
deriving DecidableEq

/-!
## Keyed collections

An IndexedDB object store with a keyPath behaves as a map from the keyPath
field to the record: `put` replaces the record with the same key, `get`
looks a key up, `delete` removes it, `getAll` enumerates.  Enumeration
order is irrelevant to every claim, so a list model suffices. -/

/-- `store.put(x)`: replace any record sharing `x`'s key, then insert. -/
def recPut {α κ : Type} [DecidableEq κ] (key : α → κ) (l : List α) (x : α) : List α :=
  x :: l.filter (fun y => ¬ key y = key x)

/-- `store.get(k)`. -/
def recGet {α κ : Type} [DecidableEq κ] (key : α → κ) (l : List α) (k : κ) : Option α :=
  l.find? (fun y => key y = k)

/-- `store.delete(k)`. -/
def recDel {α κ : Type} [DecidableEq κ] (key : α → κ) (l : List α) (k : κ) : List α :=
  l.filter (fun y => ¬ key y = k)

/-- `localStorage.getItem(k)` (`null` result = `none`). -/
def lookupKV (st : SettingsStore) (k : String) : Option String :=
  (st.find? (fun p => p.1 = k)).map (fun p => p.2)

/-- `localStorage.setItem(k, v)`. -/
def putKV (st : SettingsStore) (k v : String) : SettingsStore :=
  (k, v) :: st.filter (fun p => ¬ p.1 = k)

/-!
## Storage: single-collection operations (src/unnamed/part_000)

Each IndexedDB call is per-call atomic; the embedding models the committed
result of each successful call. -/

/-- `Storage.saveItem(item)`. -/
def Storage.saveItem (s : Store) (item : Item) : Store :=
  { s with items := recPut Item.id s.items item }

/-- `Storage.getItem(id)`. -/
def Storage.getItem (s : Store) (id : Nat) : Option Item :=
  recGet Item.id s.items id

/-- `Storage.deleteItem(id)` (removes from the active collection only). -/
def Storage.deleteItem (s : Store) (id : Nat) : Store :=
  { s with items := recDel Item.id s.items id }

/-- `Storage.saveImage(id, base64Data)`: `store.put(\x7bid, data\x7d)`. -/
def Storage.saveImage (s : Store) (id : Nat) (base64Data : String) : Store :=
  { s with images := recPut Image.id s.images ⟨id, base64Data⟩ }

/-- `Storage.getImage(id)`: returns `request.result?.data || null`, so a
missing record — or a record whose `data` is the empty (falsy) string —
yields `null` (`none`). -/
def Storage.getImage (s : Store) (id : Nat) : Option String :=
  match recGet Image.id s.images id with
  | some img => if img.data = "" then none else some img.data
  | none => none

/-- `Storage.deleteImage(id)`. -/
def Storage.deleteImage (s : Store) (id : Nat) : Store :=
  { s with images := recDel Image.id s.images id }

/-- `Storage.saveWeeklyDay(dayData)` (upsert keyed by `day`). -/
def Storage.saveWeeklyDay (s : Store) (dayData : DayPlan) : Store :=
  { s with weeklyPlan := recPut DayPlan.day s.weeklyPlan dayData }

/-- `Storage.saveOutfit(outfit)`. -/
def Storage.saveOutfit (s : Store) (outfit : Outfit) : Store :=
  { s with savedOutfits := recPut Outfit.id s.savedOutfits outfit }

/-- `Storage.saveCustomSection(section)`. -/
def Storage.saveCustomSection (s : Store) (section' : CustomSection) : Store :=
  { s with customSections := recPut CustomSection.id s.customSections section' }

/-- `Storage.deleteCustomSection(id)`. -/
def Storage.deleteCustomSection (s : Store) (id : Nat) : Store :=
  { s with customSections := recDel CustomSection.id s.customSections id }

/-- `Storage.saveShoppingItem(item)`. -/
def Storage.saveShoppingItem (s : Store) (item : ShopItem) : Store :=
  { s with shoppingList := recPut ShopItem.id s.shoppingList item }

/-- `Storage.deleteShoppingItem(id)`: deletes the shopping record only. -/
def Storage.deleteShoppingItem (s : Store) (id : Nat) : Store :=
  { s with shoppingList := recDel ShopItem.id s.shoppingList id }

/-- `Storage.saveToTrash(item)` (`put` into the `trash` store, keyed by the
record's `id`). -/
def Storage.saveToTrash (s : Store) (item : Item) : Store :=
  { s with trash := recPut Item.id s.trash item }

/-- `Storage.restoreFromTrash(id)`: reads the trash record, deletes the key
(also when the read missed — the delete is then a no-op), and returns the
record that was read. -/
def Storage.restoreFromTrash (s : Store) (id : Nat) : Option Item × Store :=
  (recGet Item.id s.trash id, { s with trash := recDel Item.id s.trash id })

/-- The image ids that `Storage.emptyTrash` deletes: the `imageId` of every
trash entry for which `if (item.imageId)` is true — a present, nonzero id
(`0`, `null` and a missing field are all falsy). -/
def trashImageIds (trash : List Item) : List Nat :=
  trash.filterMap (fun t =>
    match t.imageId with
    | some i => if i = 0 then none else some i
    | none => none)

/-- `Storage.emptyTrash()`: one read-write transaction over `trash` and
`images` that deletes each trash entry's (truthy) `imageId` from the image
store and then clears the trash store.  The IndexedDB transaction commits
as a whole or aborts as a whole; `ok` is the transaction outcome, and an
aborted transaction is rolled back by the platform, leaving the store
unchanged. -/
def Storage.emptyTrash (ok : Bool) (s : Store) : Store :=
  if ok then
    { s with
      images := s.trash.foldl (fun im t =>
        match t.imageId with
        | some i => if i = 0 then im else recDel Image.id im i
        | none => im) s.images,
      trash := [] }
  else s

/-- `Storage.getSetting(key, defaultValue)`: missing key returns the
default; otherwise `JSON.parse` the raw string, and on a parse error
return the raw string itself. -/
def Storage.getSetting (st : SettingsStore) (key : String) (defaultValue : JSValue) : JSValue :=
  match lookupKV st ("wardrobe_" ++ key) with
  | none => defaultValue
  | some v =>
    match jsonParse v with
    | some j => j
    | none => .str v

/-- `Storage.setSetting(key, value)`: objects are stored JSON-encoded,
everything else is stored string-coerced. -/
def Storage.setSetting (st : SettingsStore) (key : String) (value : JSValue) : SettingsStore :=
  if jsTypeofObject value then
    putKV st ("wardrobe_" ++ key) (jsonStringify value)
  else
    putKV st ("wardrobe_" ++ key) (jsToString value)

/-!
## App-level operations (src/js/app.js) and drag-drop (src/unnamed/part_002)
-/

/-- The mutation `App.deleteItem` applies before saving to trash: mark
deleted, stamp `deletedDate` with the current time, record
`originalCategory`. -/
def markDeleted (now : String) (item : Item) : Item :=
  { item with
    deleted := true
    deletedDate := some now
    originalCategory := some item.category }

/-- `App.deleteItem(itemId)`: look the item up; if missing do nothing, else
mark it deleted (stamping `deletedDate` with the current time and recording
`originalCategory`), save it to trash, then delete it from the active
collection. -/
def App.deleteItem (now : String) (s : Store) (itemId : Nat) : Store :=
  match Storage.getItem s itemId with
  | none => s
  | some item =>
    Storage.deleteItem (Storage.saveToTrash s (markDeleted now item)) itemId

/-- `item.originalCategory || 'other'`: a missing or empty (falsy)
`originalCategory` falls back to `'other'`. -/
def restoredCategory (originalCategory : Option String) : String :=
  match originalCategory with
  | some c => if c = "" then "other" else c
  | none => "other"

/-- The mutation `App.restoreItem` applies to the record taken out of
trash: clear the `deleted` flag, reassign the category from
`originalCategory` (defaulting to `'other'`), drop the `deletedDate` and
`originalCategory` fields. -/
def restoredItem (item : Item) : Item :=
  { item with
    deleted := false
    category := restoredCategory item.originalCategory
    deletedDate := none
    originalCategory := none }

/-- `App.restoreItem(itemId)`: take the record out of trash; if there was
none do nothing, else clear the `deleted` flag, reassign the category from
`originalCategory` (defaulting to `'other'`), drop the `deletedDate` and
`originalCategory` fields, and save the record back as an active item. -/
def App.restoreItem (s : Store) (itemId : Nat) : Store :=
  match Storage.restoreFromTrash s itemId with
  | (none, s') => s'
  | (some item, s') => Storage.saveItem s' (restoredItem item)

/-- `App.deleteShoppingItem(itemId)`: the only store mutation is
`Storage.deleteShoppingItem` — the shopping record is removed and nothing
else is touched. -/
def App.deleteShoppingItem (s : Store) (itemId : Nat) : Store :=
  Storage.deleteShoppingItem s itemId

/-- `DragDrop.addToWeeklyOutfit(day, itemId)`: find the day's plan in the
stored weekly plan; if absent do nothing; if the id is already in the
day's `items` do nothing; otherwise push the id and save the day. -/
def DragDrop.addToWeeklyOutfit (s : Store) (day : String) (itemId : Nat) : Store :=
  match s.weeklyPlan.find? (fun d => d.day = day) with
  | none => s
  | some dayPlan =>
    if itemId ∈ dayPlan.items then s
    else Storage.saveWeeklyDay s { dayPlan with items := dayPlan.items ++ [itemId] }

/-- `App.addToWeeklyFromModal(itemId)`: guarded by a truthy
`this.currentWeeklyDay` (absent or empty string aborts), then identical to
`DragDrop.addToWeeklyOutfit` for that day. -/
def App.addToWeeklyFromModal (s : Store) (currentWeeklyDay : Option String) (itemId : Nat) : Store :=
  match currentWeeklyDay with
  | none => s
  | some day =>
    if day = "" then s
    else
      match s.weeklyPlan.find? (fun d => d.day = day) with
      | none => s
      | some dayPlan =>
        if itemId ∈ dayPlan.items then s
        else Storage.saveWeeklyDay s { dayPlan with items := dayPlan.items ++ [itemId] }

/-!
## Store-mutation traces

`Storage.importAllData` and `App.deleteSection` issue a sequence of store
calls; the claims about them concern the order of those calls, so the two
functions are embedded as a trace of primitive operations plus a fold that
applies the trace.  Each constructor is one `await Storage.…` call. -/

/-- A primitive mutation of the persistent state. -/
inductive StoreOp where
  | clearAll
  | opSaveImage (id : Nat) (data : String)
  | opSaveItem (item : Item)
  | opSaveWeeklyDay (dayData : DayPlan)
  | opSaveOutfit (outfit : Outfit)
  | opSaveCustomSection (section' : CustomSection)
  | opSaveShoppingItem (item : ShopItem)
  | opSaveToTrash (item : Item)
  | opDeleteItem (id : Nat)
  | opDeleteCustomSection (id : Nat)
  | opSetSetting (key : String) (value : JSValue)

/-- `Storage.setSetting` lifted to the whole state. -/
def Storage.setSetting' (s : Store) (key : String) (value : JSValue) : Store :=
  { s with settings := Storage.setSetting s.settings key value }

/-- Apply one primitive operation.  `clearAll` is `Storage.clearAllData`:
it clears the seven IndexedDB stores and leaves localStorage (`settings`)
untouched. -/
def applyStoreOp (s : Store) : StoreOp → Store
  | .clearAll =>
    { s with items := [], images := [], weeklyPlan := [], savedOutfits := [],
             customSections := [], shoppingList := [], trash := [] }
  | .opSaveImage id data => Storage.saveImage s id data
  | .opSaveItem item => Storage.saveItem s item
  | .opSaveWeeklyDay dayData => Storage.saveWeeklyDay s dayData
  | .opSaveOutfit outfit => Storage.saveOutfit s outfit
  | .opSaveCustomSection section' => Storage.saveCustomSection s section'
  | .opSaveShoppingItem item => Storage.saveShoppingItem s item
  | .opSaveToTrash item => Storage.saveToTrash s item
  | .opDeleteItem id => Storage.deleteItem s id
  | .opDeleteCustomSection id => Storage.deleteCustomSection s id
  | .opSetSetting key value => Storage.setSetting' s key value

/-- The mutation `App.deleteSection` applies to each item it moves to
trash: mark deleted and record `originalCategory` (unlike
`App.deleteItem`, no `deletedDate` is stamped). -/
def sectionTrashItem (item : Item) : Item :=
  { item with
    deleted := true
    originalCategory := some item.category }

/-- `App.deleteSection(sectionId)` (after the user confirms): read all
items once, filter those whose category is exactly `custom-<sectionId>`,
and for each in turn mark it deleted (recording `originalCategory`, but —
unlike `App.deleteItem` — no `deletedDate`), save it to trash and delete it
from the active collection; only then delete the section record itself. -/
def App.deleteSectionTrace (s : Store) (sectionId : Nat) : List StoreOp :=
  let sectionItems := s.items.filter (fun i => i.category = "custom-" ++ toString sectionId)
  sectionItems.flatMap (fun item =>
    [StoreOp.opSaveToTrash (sectionTrashItem item), StoreOp.opDeleteItem item.id])
  ++ [StoreOp.opDeleteCustomSection sectionId]

/-- The state after `App.deleteSection(sectionId)` completes. -/
def App.deleteSection (s : Store) (sectionId : Nat) : Store :=
  (App.deleteSectionTrace s sectionId).foldl applyStoreOp s

/-!
## Export / import (src/unnamed/part_000)
-/

/-- The curated settings subset of an export document. -/
structure SettingsDoc where
  userName : JSValue
  theme : JSValue
  location : JSValue
  tempUnit : JSValue

/-- An import/export document.  Fields a document might lack are `Option`;
`exportAllData` always produces all of them. -/
structure ExportDoc where
  version : Option Int
  exportDate : String
  items : Option (List Item)
  images : Option (List Image)
  weeklyPlan : Option (List DayPlan)
  savedOutfits : Option (List Outfit)
  customSections : Option (List CustomSection)
  shoppingList : Option (List ShopItem)
  settings : Option SettingsDoc

/-- `Storage.exportAllData()`: snapshot every collection and the four
settings keys; then walk `data.items` and inline the image data of each
item with a truthy `imageId` whose image lookup yields a truthy result.
Only the wardrobe `items` are walked — the shopping list is not. -/
def Storage.exportAllData (s : Store) (nowIso : String) : ExportDoc :=
  { version := some 1
    exportDate := nowIso
    items := some s.items
    images := some (s.items.foldl (fun acc item =>
      match item.imageId with
      | some i =>
        if i = 0 then acc
        else
          match Storage.getImage s i with
          | some d => acc ++ [⟨i, d⟩]
          | none => acc
      | none => acc) [])
    weeklyPlan := some s.weeklyPlan
    savedOutfits := some s.savedOutfits
    customSections := some s.customSections
    shoppingList := some s.shoppingList
    settings := some
      { userName := Storage.getSetting s.settings "userName" JSValue.null
        theme := Storage.getSetting s.settings "theme" JSValue.null
        location := Storage.getSetting s.settings "location" JSValue.null
        tempUnit := Storage.getSetting s.settings "tempUnit" JSValue.null } }

/-- The `setSetting` calls `importAllData` issues: each of the four keys is
restored only when the imported value is truthy. -/
def settingsOps (st : SettingsDoc) : List StoreOp :=
  (if jsTruthy st.userName then [StoreOp.opSetSetting "userName" st.userName] else [])
  ++ (if jsTruthy st.theme then [StoreOp.opSetSetting "theme" st.theme] else [])
  ++ (if jsTruthy st.location then [StoreOp.opSetSetting "location" st.location] else [])
  ++ (if jsTruthy st.tempUnit then [StoreOp.opSetSetting "tempUnit" st.tempUnit] else [])

/-- The sequence of store calls `Storage.importAllData(data)` issues: a
missing (falsy) document or a version tag other than `1` throws before any
call; otherwise clear everything, then save images, items, weekly plan,
saved outfits, custom sections, shopping list, then the truthy settings. -/
def Storage.importTrace (data : Option ExportDoc) : Except String (List StoreOp) :=
  match data with
  | none => .error "Invalid data format"
  | some d =>
    if d.version ≠ some 1 then .error "Invalid data format"
    else .ok (StoreOp.clearAll ::
      ((d.images.getD []).map (fun img => StoreOp.opSaveImage img.id img.data)
      ++ (d.items.getD []).map StoreOp.opSaveItem
      ++ (d.weeklyPlan.getD []).map StoreOp.opSaveWeeklyDay
      ++ (d.savedOutfits.getD []).map StoreOp.opSaveOutfit
      ++ (d.customSections.getD []).map StoreOp.opSaveCustomSection
      ++ (d.shoppingList.getD []).map StoreOp.opSaveShoppingItem
      ++ (match d.settings with
          | some st => settingsOps st
          | none => [])))

/-- `Storage.importAllData(data)`: run the issued calls in order; an error
is thrown before the first call, so the state is untouched on failure. -/
def Storage.importAllData (data : Option ExportDoc) (s : Store) : Except String Store :=
  (Storage.importTrace data).map (fun ops => ops.foldl applyStoreOp s)

/-!
## Weather (src/unnamed/part_000, weather module)
-/

/-- `Weather.CACHE_DURATION = 30 * 60 * 1000` (30 minutes in ms). -/
def Weather.CACHE_DURATION : Int := 30 * 60 * 1000

/-- Result of a `Weather.fetchWeather` run: the returned/thrown value, the
settings store afterwards, and whether the network was consulted. -/
structure FetchOutcome where
  result : Except Unit JSValue
  settings : SettingsStore
  fetched : Bool

/-- `Date.now() - cached.timestamp < CACHE_DURATION`.  A cache value
without a numeric `timestamp` compares via `NaN`, which is never less than
the duration.  (A non-numeric but coercible `timestamp` is outside the
modelled fragment; the code only ever stores `Date.now()` there.) -/
def cacheIsFresh (cached : JSValue) (now : Int) : Bool :=
  match jsField cached "timestamp" with
  | JSValue.num t => decide (now - t < Weather.CACHE_DURATION)
  | _ => false

/-- `Weather.fetchWeather(lat, lon)`: if a truthy cached value is fresh,
return its `data` without fetching; otherwise fetch (the network outcome is
the `fetchResult` argument — the URL only influences that outcome), cache
`\x7bdata, timestamp: Date.now()\x7d` and return the data on success; on
fetch failure return the stale cached `data` if the cache is truthy, else
rethrow. -/
def Weather.fetchWeather (st : SettingsStore) (now : Int)
    (fetchResult : Except Unit JSValue) : FetchOutcome :=
  let cached := Storage.getSetting st "weatherCache" JSValue.null
  if jsTruthy cached && cacheIsFresh cached now then
    { result := .ok (jsField cached "data"), settings := st, fetched := false }
  else
    match fetchResult with
    | .ok d =>
      { result := .ok d
        settings := Storage.setSetting st "weatherCache"
          (JSValue.obj [("data", d), ("timestamp", JSValue.num now)])
        fetched := true }
    | .error e =>
      if jsTruthy cached then
        { result := .ok (jsField cached "data"), settings := st, fetched := true }
      else
        { result := .error e, settings := st, fetched := true }

/-!
## Collection lemmas
-/

theorem find?_filter_of_imp {α : Type} (l : List α) (p q : α → Bool)
    (h : ∀ a, p a = true → q a = true) :
    List.find? p (l.filter q) = List.find? p l := by
  induction l with
  | nil => rfl
  | cons a l ih =>
    by_cases hq : q a = true
    · by_cases hp : p a = true
      · simp [List.filter_cons, hq, List.find?_cons, hp]
      · rw [Bool.not_eq_true] at hp
        simp [List.filter_cons, hq, List.find?_cons, hp, ih]
    · have hp : p a = false := by
        cases hpa : p a with
        | false => rfl
        | true => exact absurd (h a hpa) hq
      rw [Bool.not_eq_true] at hq
      simp [List.filter_cons, hq, List.find?_cons, hp, ih]

theorem recGet_put_self {α κ : Type} [DecidableEq κ] (key : α → κ) (l : List α) (x : α) :
    recGet key (recPut key l x) (key x) = some x := by
  simp [recGet, recPut, List.find?_cons]

theorem recGet_put_of_ne {α κ : Type} [DecidableEq κ] (key : α → κ) (l : List α) (x : α)
    (k : κ) (h : k ≠ key x) :
    recGet key (recPut key l x) k = recGet key l k := by
  unfold recGet recPut
  rw [List.find?_cons]
  have hx : (decide (key x = k)) = false := by
    simp only [decide_eq_false_iff_not]
    exact fun e => h e.symm
  rw [hx]
  simp only [cond_false]
  apply find?_filter_of_imp
  intro a ha
  simp only [decide_eq_true_eq] at ha
  simp only [decide_eq_true_eq, decide_not, Bool.not_eq_true', decide_eq_false_iff_not]
  intro e
  exact h (ha ▸ e ▸ rfl)

theorem recGet_del_self {α κ : Type} [DecidableEq κ] (key : α → κ) (l : List α) (k : κ) :
    recGet key (recDel key l k) k = none := by
  unfold recGet recDel
  rw [List.find?_eq_none]
  intro a ha
  have := (List.mem_filter.mp ha).2
  simpa using this

theorem recGet_del_of_ne {α κ : Type} [DecidableEq κ] (key : α → κ) (l : List α) (k k' : κ)
    (h : k' ≠ k) :
    recGet key (recDel key l k) k' = recGet key l k' := by
  unfold recGet recDel
  apply find?_filter_of_imp
  intro a ha
  simp only [decide_eq_true_eq] at ha
  simp only [decide_not, Bool.not_eq_true', decide_eq_false_iff_not]
  intro e
  exact h (ha ▸ e ▸ rfl)

theorem mem_recDel {α κ : Type} [DecidableEq κ] (key : α → κ) (l : List α) (k : κ) (y : α) :
    y ∈ recDel key l k ↔ y ∈ l ∧ ¬ key y = k := by
  simp [recDel, List.mem_filter]

theorem recGet_foldl_recDel {α κ : Type} [DecidableEq κ] (key : α → κ) (L : List κ)
    (l : List α) (k : κ) :
    recGet key (L.foldl (fun acc j => recDel key acc j) l) k
      = if k ∈ L then none else recGet key l k := by
  induction L generalizing l with
  | nil => simp
  | cons j L ih =>
    simp only [List.foldl_cons]
    rw [ih]
    by_cases hkj : k = j
    · subst hkj
      by_cases hkL : k ∈ L <;> simp [hkL, recGet_del_self]
    · by_cases hkL : k ∈ L <;> simp [hkL, hkj, recGet_del_of_ne key l j k hkj]

theorem mem_foldl_recDel {α κ : Type} [DecidableEq κ] (key : α → κ) (L : List κ)
    (l : List α) (y : α) :
    y ∈ L.foldl (fun acc j => recDel key acc j) l ↔ y ∈ l ∧ ¬ key y ∈ L := by
  induction L generalizing l with
  | nil => simp
  | cons j L ih =>
    simp only [List.foldl_cons]
    rw [ih, mem_recDel]
    simp only [List.mem_cons]
    tauto

theorem recGet_foldl_put_of_forall_ne {α β κ : Type} [DecidableEq κ] (key : α → κ)
    (f : β → α) (L : List β) (l : List α) (k : κ) (h : ∀ b ∈ L, ¬ key (f b) = k) :
    recGet key (L.foldl (fun acc b => recPut key acc (f b)) l) k = recGet key l k := by
  induction L generalizing l with
  | nil => rfl
  | cons b L ih =>
    simp only [List.foldl_cons]
    rw [ih _ (fun b' hb' => h b' (List.mem_cons_of_mem _ hb')),
      recGet_put_of_ne key l (f b) k (fun e => h b (List.mem_cons_self _ _) e.symm)]

theorem emptyTrash_images_eq (trash : List Item) (images : List Image) :
    trash.foldl (fun im t =>
        match t.imageId with
        | some i => if i = 0 then im else recDel Image.id im i
        | none => im) images
      = (trashImageIds trash).foldl (fun im i => recDel Image.id im i) images := by
  induction trash generalizing images with
  | nil => rfl
  | cons t ts ih =>
    simp only [List.foldl_cons, trashImageIds, List.filterMap_cons]
    cases h : t.imageId with
    | none => exact ih images
    | some i =>
      by_cases hi : i = 0
      · simp only [hi, if_pos rfl, if_true]
        exact ih images
      · simp only [if_neg hi]
        rw [List.foldl_cons]
        exact ih (recDel Image.id images i)

/-!
## C8 — deleting a shopping item and its image
-/

/-- A store with one image (id 5) and one shopping entry (id 9)
referencing it. -/
def C8store : Store :=
  { items := [], images := [⟨5, "imgdata"⟩], weeklyPlan := [], savedOutfits := [],
    customSections := [], shoppingList := [⟨9, "Sneakers", "white", "$40", some 5⟩],
    trash := [], settings := [] }

/-- C8, counterexample: the claim says deleting a shopping item with a
non-null `imageId` also deletes the referenced image record.  It does not:
after `App.deleteShoppingItem(9)` the shopping entry is gone but image 5 is
still present — `App.deleteShoppingItem` calls only
`Storage.deleteShoppingItem`, which touches nothing but the shopping
collection, so the image record leaks. -/
theorem C8_shopping_image_not_deleted :
    ¬ (recGet Image.id (App.deleteShoppingItem C8store 9).images 5 = none) ∧
    recGet ShopItem.id (App.deleteShoppingItem C8store 9).shoppingList 9 = none ∧
    recGet Image.id (App.deleteShoppingItem C8store 9).images 5 = some ⟨5, "imgdata"⟩ := by
  refine ⟨?_, by decide, by decide⟩
  decide

/-- C8, amended: `App.deleteShoppingItem(id)` removes the shopping entry
and nothing else — in particular, the image collection (and every other
collection) is unchanged, so a referenced image record survives as a
leak. -/
theorem C8_delete_shopping_item_plain_crud (s : Store) (itemId : Nat) :
    (App.deleteShoppingItem s itemId).images = s.images ∧
    (App.deleteShoppingItem s itemId).items = s.items ∧
    (App.deleteShoppingItem s itemId).trash = s.trash ∧
    (App.deleteShoppingItem s itemId).settings = s.settings ∧
    recGet ShopItem.id (App.deleteShoppingItem s itemId).shoppingList itemId = none := by
  refine ⟨rfl, rfl, rfl, rfl, ?_⟩
  exact recGet_del_self ShopItem.id s.shoppingList itemId

/-!
## C4 — getSetting defaults and decode failures
-/

/-- The localStorage contents after `setSetting('tempUnit', 'fahrenheit')`:
the raw (non-JSON) string `fahrenheit` stored under `wardrobe_tempUnit`. -/
def C4store : SettingsStore := Storage.setSetting [] "tempUnit" (JSValue.str "fahrenheit")

/-- C4, counterexample: the claim says `getSetting` returns the default
when the stored value fails JSON decoding.  It does not: the `catch`
branch returns the raw stored string.  With `'fahrenheit'` stored (which
is not valid JSON — this is exactly how `setSetting` persists plain
strings), `getSetting('tempUnit', 'celsius')` returns `'fahrenheit'`, not
the default `'celsius'`. -/
theorem C4_decode_failure_returns_raw :
    Storage.getSetting C4store "tempUnit" (JSValue.str "celsius") = JSValue.str "fahrenheit" ∧
    ¬ Storage.getSetting C4store "tempUnit" (JSValue.str "celsius") = JSValue.str "celsius" := by
  have e : Storage.getSetting C4store "tempUnit" (JSValue.str "celsius")
      = JSValue.str "fahrenheit" := rfl
  refine ⟨e, fun h => ?_⟩
  rw [e] at h
  injection h with h'
  exact absurd h' (by decide)

/-- C4, amended: `getSetting(key, default)` returns the default when the
key was never set; when the stored raw value fails JSON decoding it
returns the raw stored string (not the default); and
`getSetting('tempUnit', 'fahrenheit')` on an uninitialized store returns
`'fahrenheit'`. -/
theorem C4_get_setting_amended (st : SettingsStore) (key : String) (defaultValue : JSValue) :
    (lookupKV st ("wardrobe_" ++ key) = none →
      Storage.getSetting st key defaultValue = defaultValue) ∧
    (∀ v, lookupKV st ("wardrobe_" ++ key) = some v → jsonParse v = none →
      Storage.getSetting st key defaultValue = JSValue.str v) ∧
    Storage.getSetting [] "tempUnit" (JSValue.str "fahrenheit") = JSValue.str "fahrenheit" := by
  refine ⟨fun h => ?_, fun v hv hp => ?_, rfl⟩
  · unfold Storage.getSetting
    rw [h]
  · unfold Storage.getSetting
    rw [hv]
    simp only []
    rw [hp]

/-- Witness for `C4_get_setting_amended`: both hypothesis-bearing arms
discharged at concrete inputs — an uninitialized store, and the store
holding the raw string `fahrenheit`. -/
theorem C4_get_setting_amended_witness :
    Storage.getSetting [] "theme" (JSValue.str "light") = JSValue.str "light" ∧
    Storage.getSetting C4store "tempUnit" JSValue.null = JSValue.str "fahrenheit" := by
  refine ⟨(C4_get_setting_amended [] "theme" (JSValue.str "light")).1 rfl, ?_⟩
  exact (C4_get_setting_amended C4store "tempUnit" JSValue.null).2.1 "fahrenheit" rfl rfl

theorem recGet_key_eq {α κ : Type} [DecidableEq κ] (key : α → κ) (l : List α) (k : κ) (x : α)
    (h : recGet key l k = some x) : key x = k := by
  have := List.find?_some h
  simpa using this

theorem recGet_mem {α κ : Type} [DecidableEq κ] (key : α → κ) (l : List α) (k : κ) (x : α)
    (h : recGet key l k = some x) : x ∈ l :=
  List.mem_of_find?_eq_some h

/-!
## C10 — restoreItem defaults
-/

/-- C10: for every trash entry, `App.restoreItem` puts back a record whose
`deletedDate` and `originalCategory` fields are removed, whose `deleted`
flag is cleared, and whose category is `restoredCategory` of the entry's
`originalCategory` — which is `'other'` exactly when that field is missing
or empty. -/
theorem C10_restore_item_fields (s : Store) (itemId : Nat) (t : Item)
    (hfind : recGet Item.id s.trash itemId = some t) :
    recGet Item.id (App.restoreItem s itemId).items itemId
      = some { t with
          deleted := false
          category := restoredCategory t.originalCategory
          deletedDate := none
          originalCategory := none } ∧
    ((t.originalCategory = none ∨ t.originalCategory = some "") →
      restoredCategory t.originalCategory = "other") := by
  have hid : t.id = itemId := recGet_key_eq Item.id s.trash itemId t hfind
  constructor
  · unfold App.restoreItem Storage.restoreFromTrash
    rw [hfind]
    simp only []
    unfold Storage.saveItem
    have hkey : ({ t with
        deleted := false
        category := restoredCategory t.originalCategory
        deletedDate := none
        originalCategory := none } : Item).id = itemId := hid
    rw [← hkey]
    exact recGet_put_self _ _ _
  · rintro (h | h) <;> simp [restoredCategory, h]

/-- Concrete instance of `C10_restore_item_fields`: a trash entry with no
`originalCategory` restores into category `'other'` with the bookkeeping
fields cleared. -/
theorem C10_restore_item_fields_witness :
    recGet Item.id (App.restoreItem
        { items := [], images := [], weeklyPlan := [], savedOutfits := [],
          customSections := [], shoppingList := [],
          trash := [⟨3, some 7, "tops", true, false, "2024-01-01", true, some "2024-02-02", none⟩],
          settings := [] } 3).items 3
      = some ⟨3, some 7, "other", true, false, "2024-01-01", false, none, none⟩ ∧
    restoredCategory none = "other" := by
  have h := C10_restore_item_fields
    { items := [], images := [], weeklyPlan := [], savedOutfits := [],
      customSections := [], shoppingList := [],
      trash := [⟨3, some 7, "tops", true, false, "2024-01-01", true, some "2024-02-02", none⟩],
      settings := [] } 3
    ⟨3, some 7, "tops", true, false, "2024-01-01", true, some "2024-02-02", none⟩ rfl
  exact ⟨h.1, h.2 (Or.inl rfl)⟩


/-!
## C2 — delete / restore round trip
-/

/-- `App.restoreItem` when the trash lookup hits: the trash entry is
removed and the restored record saved back. -/
theorem App.restoreItem_spec (s : Store) (itemId : Nat) (t : Item)
    (hfind : recGet Item.id s.trash itemId = some t) :
    App.restoreItem s itemId
      = Storage.saveItem { s with trash := recDel Item.id s.trash itemId }
          (restoredItem t) := by
  unfold App.restoreItem Storage.restoreFromTrash
  rw [hfind]

/-- A category value of the data model: one of the four fixed categories
or a custom-section reference `custom-<sectionId>`. -/
def validCategory (c : String) : Prop :=
  c = "tops" ∨ c = "bottoms" ∨ c = "outerwear" ∨ c = "other" ∨
    ∃ n : Nat, c = "custom-" ++ toString n

theorem validCategory_ne_empty {c : String} (h : validCategory c) : ¬ c = "" := by
  intro e
  rcases h with h | h | h | h | ⟨n, h⟩ <;> rw [h] at e
  · exact absurd e (by decide)
  · exact absurd e (by decide)
  · exact absurd e (by decide)
  · exact absurd e (by decide)
  · have hl := congrArg String.length e
    rw [String.length_append] at hl
    have h7 : ("custom-" : String).length = 7 := rfl
    have h0 : ("" : String).length = 0 := rfl
    rw [h7, h0] at hl
    omega

/-- C2: deleting an active item (a record of the data model: not deleted,
no deletion bookkeeping, a valid category) and then restoring it puts the
exact original record back into the active collection — in particular
`deleted = false`, `category` equal to the `originalCategory` recorded at
deletion time (which is the original category) and the `favorite` flag
preserved — and leaves no trash entry for the id. -/
theorem C2_delete_restore_roundtrip (s : Store) (itemId : Nat) (now : String) (orig : Item)
    (hfind : Storage.getItem s itemId = some orig)
    (hdeleted : orig.deleted = false)
    (hdate : orig.deletedDate = none)
    (horig : orig.originalCategory = none)
    (hcat : validCategory orig.category) :
    recGet Item.id (App.restoreItem (App.deleteItem now s itemId) itemId).items itemId
      = some orig ∧
    recGet Item.id (App.restoreItem (App.deleteItem now s itemId) itemId).trash itemId
      = none := by
  have hid : orig.id = itemId := recGet_key_eq Item.id s.items itemId orig hfind
  have h1 : App.deleteItem now s itemId
      = { s with
          trash := recPut Item.id s.trash (markDeleted now orig)
          items := recDel Item.id s.items itemId } := by
    unfold App.deleteItem
    rw [hfind]
    rfl
  have hmid : (markDeleted now orig).id = itemId := hid
  have hrt : recGet Item.id (recPut Item.id s.trash (markDeleted now orig)) itemId
      = some (markDeleted now orig) := by
    rw [← hmid]
    exact recGet_put_self _ _ _
  have hrestored : restoredItem (markDeleted now orig) = orig := by
    have hrc : restoredCategory (markDeleted now orig).originalCategory = orig.category := by
      show (if orig.category = "" then "other" else orig.category) = orig.category
      rw [if_neg (validCategory_ne_empty hcat)]
    cases orig with
    | mk i im c f l d del dd oc =>
      simp only [markDeleted, restoredItem] at hrc ⊢
      simp only [Item.mk.injEq]
      exact ⟨by trivial, by trivial, hrc, by trivial, by trivial, by trivial,
        hdeleted.symm, hdate.symm, horig.symm⟩
  rw [h1]
  rw [App.restoreItem_spec { s with
      trash := recPut Item.id s.trash (markDeleted now orig)
      items := recDel Item.id s.items itemId } itemId (markDeleted now orig) hrt]
  rw [hrestored]
  unfold Storage.saveItem
  constructor
  · show recGet Item.id (recPut Item.id (recDel Item.id s.items itemId) orig) itemId
      = some orig
    rw [← hid]
    exact recGet_put_self _ _ _
  · show recGet Item.id
      (recDel Item.id (recPut Item.id s.trash (markDeleted now orig)) itemId) itemId = none
    exact recGet_del_self _ _ _

/-- The scenario store for C2: item A (id 1, category `tops`, image
`img1`, favorite already toggled on). -/
def C2store : Store :=
  { items := [⟨1, some 11, "tops", true, false, "2026-01-01", false, none, none⟩],
    images := [⟨11, "img1"⟩], weeklyPlan := [], savedOutfits := [],
    customSections := [], shoppingList := [], trash := [], settings := [] }

/-- Witness for `C2_delete_restore_roundtrip`: the spec's scenario — a
favorite `tops` item survives the trash round-trip unchanged. -/
theorem C2_delete_restore_roundtrip_witness :
    recGet Item.id (App.restoreItem (App.deleteItem "2026-01-02" C2store 1) 1).items 1
      = some ⟨1, some 11, "tops", true, false, "2026-01-01", false, none, none⟩ ∧
    recGet Item.id (App.restoreItem (App.deleteItem "2026-01-02" C2store 1) 1).trash 1
      = none :=
  C2_delete_restore_roundtrip C2store 1 "2026-01-02"
    ⟨1, some 11, "tops", true, false, "2026-01-01", false, none, none⟩
    rfl rfl rfl rfl (Or.inl rfl)

/-!
## C1 — emptyTrash
-/

/-- C1 exactly as the claim states it, as a predicate of the starting
store: after a successful `emptyTrash()` the trash is empty, the image
record referenced by each former trash entry's `imageId` is deleted, every
image not referenced by a trash entry is unchanged, and on failure nothing
is removed. -/
def emptyTrashClaim (s : Store) : Prop :=
  (Storage.emptyTrash true s).trash = [] ∧
  (∀ t ∈ s.trash, ∀ i, t.imageId = some i →
      recGet Image.id (Storage.emptyTrash true s).images i = none) ∧
  (∀ i, (∀ t ∈ s.trash, t.imageId ≠ some i) →
      recGet Image.id (Storage.emptyTrash true s).images i
        = recGet Image.id s.images i) ∧
  Storage.emptyTrash false s = s

/-- A store whose single trash entry carries `imageId = 0` — a falsy value
in JavaScript — while image 0 exists.  (Such a state is reachable:
`importAllData` inserts items and images verbatim from the document, and
`App.deleteItem` then moves the item to trash.) -/
def C1store : Store :=
  { items := [], images := [⟨0, "orphan"⟩], weeklyPlan := [], savedOutfits := [],
    customSections := [], shoppingList := [],
    trash := [⟨1, some 0, "tops", false, false, "2024-01-01", true, none, some "tops"⟩],
    settings := [] }

/-- C1, counterexample: `emptyTrash` guards each image deletion with
`if (item.imageId)`, and the number `0` is falsy in JavaScript — so the
trash entry with `imageId = 0` is cleared but image 0 survives,
contradicting the claim that the image referenced by each former trash
entry's `imageId` has been deleted. -/
theorem C1_empty_trash_claim_false : ¬ emptyTrashClaim C1store := by
  intro h
  have h2 := h.2.1
    ⟨1, some 0, "tops", false, false, "2024-01-01", true, none, some "tops"⟩
    (by decide) 0 rfl
  have hc : recGet Image.id (Storage.emptyTrash true C1store).images 0
      = some ⟨0, "orphan"⟩ := rfl
  rw [hc] at h2
  exact Option.noConfusion h2

/-- C1, amended: after a successful `emptyTrash()` the trash collection is
empty, the image record referenced by each former trash entry's *nonzero*
`imageId` has been deleted, every image whose id is not among the trash
entries' nonzero `imageId`s is unchanged (note this deletes an image even
if an active item also references it — the data model's exclusive-image
invariant makes that state unreachable), and a failed (aborted) transaction
leaves the store unchanged. -/
theorem C1_empty_trash_amended (s : Store) :
    (Storage.emptyTrash true s).trash = [] ∧
    (∀ t ∈ s.trash, ∀ i, t.imageId = some i → ¬ i = 0 →
        recGet Image.id (Storage.emptyTrash true s).images i = none) ∧
    (∀ i, i ∉ trashImageIds s.trash →
        recGet Image.id (Storage.emptyTrash true s).images i
          = recGet Image.id s.images i) ∧
    Storage.emptyTrash false s = s := by
  have himg : (Storage.emptyTrash true s).images
      = (trashImageIds s.trash).foldl (fun im j => recDel Image.id im j) s.images := by
    show s.trash.foldl _ s.images = _
    exact emptyTrash_images_eq s.trash s.images
  refine ⟨rfl, ?_, ?_, rfl⟩
  · intro t ht i hi hnz
    rw [himg, recGet_foldl_recDel]
    have hmem : i ∈ trashImageIds s.trash := by
      unfold trashImageIds
      refine List.mem_filterMap.mpr ⟨t, ht, ?_⟩
      rw [hi]
      simp [hnz]
    rw [if_pos hmem]
  · intro i hnot
    rw [himg, recGet_foldl_recDel, if_neg hnot]

/-- A store with a trash entry referencing image 5 and an unrelated image 9. -/
def C1wstore : Store :=
  { items := [], images := [⟨5, "trashed"⟩, ⟨9, "kept"⟩], weeklyPlan := [],
    savedOutfits := [], customSections := [], shoppingList := [],
    trash := [⟨2, some 5, "tops", false, false, "2024-01-01", true, none, some "tops"⟩],
    settings := [] }

/-- Witness for `C1_empty_trash_amended`: emptying the trash of `C1wstore`
clears the trash, deletes image 5 and keeps image 9; the aborted
transaction changes nothing. -/
theorem C1_empty_trash_amended_witness :
    (Storage.emptyTrash true C1wstore).trash = [] ∧
    recGet Image.id (Storage.emptyTrash true C1wstore).images 5 = none ∧
    recGet Image.id (Storage.emptyTrash true C1wstore).images 9
      = recGet Image.id C1wstore.images 9 ∧
    Storage.emptyTrash false C1wstore = C1wstore := by
  have h := C1_empty_trash_amended C1wstore
  exact ⟨h.1,
    h.2.1 ⟨2, some 5, "tops", false, false, "2024-01-01", true, none, some "tops"⟩
      (by decide) 5 rfl (by decide),
    h.2.2.1 9 (by decide), h.2.2.2⟩

/-!
## C3 — no duplicate ids in a weekly day plan
-/

/-- One duplicate-relevant mutation of the weekly plan: a drag-and-drop
add or an add from the weekly modal. -/
inductive WeeklyOp where
  | dragAdd (day : String) (itemId : Nat)
  | modalAdd (currentWeeklyDay : Option String) (itemId : Nat)

/-- Run one weekly-plan mutation. -/
def applyWeeklyOp (s : Store) : WeeklyOp → Store
  | .dragAdd day itemId => DragDrop.addToWeeklyOutfit s day itemId
  | .modalAdd currentWeeklyDay itemId => App.addToWeeklyFromModal s currentWeeklyDay itemId

/-- Run a sequence of weekly-plan mutations. -/
def runWeeklyOps (s : Store) (ops : List WeeklyOp) : Store :=
  ops.foldl applyWeeklyOp s

/-- No stored weekly day plan contains an item id twice. -/
def WeeklyNodup (s : Store) : Prop :=
  ∀ p ∈ s.weeklyPlan, p.items.Nodup

theorem weeklyNodup_addToWeeklyOutfit (s : Store) (day : String) (itemId : Nat)
    (h : WeeklyNodup s) : WeeklyNodup (DragDrop.addToWeeklyOutfit s day itemId) := by
  unfold DragDrop.addToWeeklyOutfit
  cases hf : s.weeklyPlan.find? (fun d => d.day = day) with
  | none => exact h
  | some dayPlan =>
    simp only []
    by_cases hmem : itemId ∈ dayPlan.items
    · rw [if_pos hmem]
      exact h
    · rw [if_neg hmem]
      intro p hp
      unfold Storage.saveWeeklyDay recPut at hp
      rcases List.mem_cons.mp hp with hpe | hp'
      · subst hpe
        have hnd : dayPlan.items.Nodup := h dayPlan (List.mem_of_find?_eq_some hf)
        simp [List.nodup_append, hnd, hmem]
      · exact h p (List.mem_of_mem_filter hp')

theorem addToWeeklyFromModal_some (s : Store) (day : String) (itemId : Nat) :
    App.addToWeeklyFromModal s (some day) itemId
      = if day = "" then s else DragDrop.addToWeeklyOutfit s day itemId := by
  unfold App.addToWeeklyFromModal DragDrop.addToWeeklyOutfit
  rfl

theorem weeklyNodup_addToWeeklyFromModal (s : Store) (currentWeeklyDay : Option String)
    (itemId : Nat) (h : WeeklyNodup s) :
    WeeklyNodup (App.addToWeeklyFromModal s currentWeeklyDay itemId) := by
  cases currentWeeklyDay with
  | none => exact h
  | some day =>
    rw [addToWeeklyFromModal_some]
    by_cases hd : day = ""
    · rw [if_pos hd]
      exact h
    · rw [if_neg hd]
      exact weeklyNodup_addToWeeklyOutfit s day itemId h

theorem weeklyNodup_runWeeklyOps (ops : List WeeklyOp) (s : Store) (hinv : WeeklyNodup s) :
    WeeklyNodup (runWeeklyOps s ops) := by
  induction ops generalizing s with
  | nil => exact hinv
  | cons op ops ih =>
    refine ih _ ?_
    cases op with
    | dragAdd day itemId => exact weeklyNodup_addToWeeklyOutfit s day itemId hinv
    | modalAdd d itemId => exact weeklyNodup_addToWeeklyFromModal s d itemId hinv

/-- C3: starting from any store whose weekly plan has no duplicate ids,
every sequence of `addToWeeklyOutfit` / `addToWeeklyFromModal` calls keeps
every stored day plan free of duplicate item ids; and an add of an id that
is already in the day's `items` leaves the whole store unchanged. -/
theorem C3_weekly_no_duplicate_ids (s : Store) (hinv : WeeklyNodup s) :
    (∀ ops, WeeklyNodup (runWeeklyOps s ops)) ∧
    (∀ day itemId p, s.weeklyPlan.find? (fun d => d.day = day) = some p →
        itemId ∈ p.items →
        DragDrop.addToWeeklyOutfit s day itemId = s ∧
        App.addToWeeklyFromModal s (some day) itemId = s) := by
  constructor
  · intro ops
    exact weeklyNodup_runWeeklyOps ops s hinv
  · intro day itemId p hf hmem
    have hdrag : DragDrop.addToWeeklyOutfit s day itemId = s := by
      unfold DragDrop.addToWeeklyOutfit
      rw [hf]
      simp only []
      rw [if_pos hmem]
    refine ⟨hdrag, ?_⟩
    rw [addToWeeklyFromModal_some]
    by_cases hd : day = ""
    · rw [if_pos hd]
    · rw [if_neg hd]
      exact hdrag

/-- A store with Monday's plan holding item 4. -/
def C3store : Store :=
  { items := [], images := [], weeklyPlan := [⟨"Monday", "Regular Day", [4], ""⟩],
    savedOutfits := [], customSections := [], shoppingList := [], trash := [],
    settings := [] }

/-- Witness for `C3_weekly_no_duplicate_ids`: repeated adds of item 4 to
Monday (by drag and by modal) leave the plan duplicate-free, and each such
repeated add leaves the store unchanged. -/
theorem C3_weekly_no_duplicate_ids_witness :
    WeeklyNodup (runWeeklyOps C3store
      [WeeklyOp.dragAdd "Monday" 4, WeeklyOp.modalAdd (some "Monday") 4,
       WeeklyOp.dragAdd "Monday" 6, WeeklyOp.dragAdd "Monday" 6]) ∧
    DragDrop.addToWeeklyOutfit C3store "Monday" 4 = C3store ∧
    App.addToWeeklyFromModal C3store (some "Monday") 4 = C3store := by
  have hinv : WeeklyNodup C3store := by
    intro p hp
    have hp' : p ∈ [(⟨"Monday", "Regular Day", [4], ""⟩ : DayPlan)] := hp
    rw [List.mem_singleton] at hp'
    subst hp'
    decide
  have h := C3_weekly_no_duplicate_ids C3store hinv
  have h2 := h.2 "Monday" 4 ⟨"Monday", "Regular Day", [4], ""⟩ rfl (by decide)
  exact ⟨h.1 _, h2.1, h2.2⟩

/-!
## C7 — deleteSection cascade
-/

theorem recGet_foldl_recPut_mem {α β κ : Type} [DecidableEq κ] (key : α → κ)
    (f : β → α) (g : β → κ) (hkey : ∀ b, key (f b) = g b)
    (L : List β) (l : List α) (b : β) (hb : b ∈ L) (hnd : (L.map g).Nodup) :
    recGet key (L.foldl (fun acc x => recPut key acc (f x)) l) (g b) = some (f b) := by
  induction L generalizing l with
  | nil => cases hb
  | cons x L ih =>
    rw [List.map_cons, List.nodup_cons] at hnd
    rw [List.foldl_cons]
    rcases List.mem_cons.mp hb with hbx | hbL
    · subst hbx
      rw [recGet_foldl_put_of_forall_ne key f L (recPut key l (f b)) (g b)
        (fun y hy e => hnd.1 ((hkey y ▸ e) ▸ List.mem_map_of_mem g hy))]
      rw [← hkey b]
      exact recGet_put_self key l (f b)
    · exact ih _ hbL hnd.2

theorem deleteSection_fold_spec (L : List Item) (s : Store) :
    ((L.flatMap (fun item =>
        [StoreOp.opSaveToTrash (sectionTrashItem item), StoreOp.opDeleteItem item.id])).foldl
      applyStoreOp s)
    = { s with
        items := L.foldl (fun acc it => recDel Item.id acc it.id) s.items
        trash := L.foldl (fun acc it => recPut Item.id acc (sectionTrashItem it)) s.trash } := by
  induction L generalizing s with
  | nil => rfl
  | cons it L ih =>
    show (([StoreOp.opSaveToTrash (sectionTrashItem it), StoreOp.opDeleteItem it.id]
        ++ L.flatMap (fun item =>
          [StoreOp.opSaveToTrash (sectionTrashItem item), StoreOp.opDeleteItem item.id])).foldl
        applyStoreOp s) = _
    rw [List.foldl_append, ih]
    rfl

/-- C7: after `App.deleteSection(sectionId)` completes, every item whose
category was `custom-<sectionId>` is in the trash collection — marked
`deleted = true` with `originalCategory` recorded — and gone from the
active items; no remaining active item references the section; the section
record is gone; and in the issued call sequence the
`deleteCustomSection` call is the single final operation, after all the
item relocations. -/
theorem C7_delete_section_cascade (s : Store) (sectionId : Nat)
    (hnodup : (s.items.map Item.id).Nodup) :
    (∀ it ∈ s.items, it.category = "custom-" ++ toString sectionId →
        recGet Item.id (App.deleteSection s sectionId).trash it.id
            = some (sectionTrashItem it) ∧
        recGet Item.id (App.deleteSection s sectionId).items it.id = none) ∧
    (∀ it ∈ (App.deleteSection s sectionId).items,
        ¬ it.category = "custom-" ++ toString sectionId) ∧
    recGet CustomSection.id (App.deleteSection s sectionId).customSections sectionId = none ∧
    (∃ pre, App.deleteSectionTrace s sectionId
        = pre ++ [StoreOp.opDeleteCustomSection sectionId] ∧
      ∀ op ∈ pre, ¬ op = StoreOp.opDeleteCustomSection sectionId) := by
  set cat := "custom-" ++ toString sectionId with hcat
  set L := s.items.filter (fun i => i.category = cat) with hL
  have hMnd : (L.map Item.id).Nodup :=
    List.Nodup.sublist (List.Sublist.map Item.id (List.filter_sublist s.items)) hnodup
  have hM : App.deleteSection s sectionId = { s with
      items := L.foldl (fun acc it => recDel Item.id acc it.id) s.items
      trash := L.foldl (fun acc it => recPut Item.id acc (sectionTrashItem it)) s.trash
      customSections := recDel CustomSection.id s.customSections sectionId } := by
    show ((L.flatMap (fun item =>
        [StoreOp.opSaveToTrash (sectionTrashItem item), StoreOp.opDeleteItem item.id])
        ++ [StoreOp.opDeleteCustomSection sectionId]).foldl applyStoreOp s) = _
    rw [List.foldl_append, deleteSection_fold_spec]
    rfl
  have hitems : ∀ it : Item,
      (it ∈ L.foldl (fun acc x => recDel Item.id acc x.id) s.items
        ↔ it ∈ s.items ∧ ¬ it.id ∈ L.map Item.id) := by
    intro it
    rw [show (L.foldl (fun acc x => recDel Item.id acc x.id) s.items)
        = ((L.map Item.id).foldl (fun acc k => recDel Item.id acc k) s.items) from
      (List.foldl_map Item.id (fun acc k => recDel Item.id acc k) L s.items).symm]
    exact mem_foldl_recDel Item.id (L.map Item.id) s.items it
  refine ⟨?_, ?_, ?_, ?_⟩
  · intro it hit hc
    have hmemL : it ∈ L := List.mem_filter.mpr ⟨hit, by simp [hc]⟩
    constructor
    · rw [hM]
      exact recGet_foldl_recPut_mem Item.id sectionTrashItem Item.id (fun _ => rfl)
        L s.trash it hmemL hMnd
    · rw [hM]
      show recGet Item.id (L.foldl (fun acc x => recDel Item.id acc x.id) s.items) it.id = none
      rw [show (L.foldl (fun acc x => recDel Item.id acc x.id) s.items)
          = ((L.map Item.id).foldl (fun acc k => recDel Item.id acc k) s.items) from
        (List.foldl_map Item.id (fun acc k => recDel Item.id acc k) L s.items).symm]
      rw [recGet_foldl_recDel, if_pos (List.mem_map_of_mem Item.id hmemL)]
  · intro it hit
    rw [hM] at hit
    have hm := (hitems it).mp hit
    intro hc
    exact hm.2 (List.mem_map_of_mem Item.id (List.mem_filter.mpr ⟨hm.1, by simp [hc]⟩))
  · rw [hM]
    exact recGet_del_self CustomSection.id s.customSections sectionId
  · refine ⟨L.flatMap (fun item =>
        [StoreOp.opSaveToTrash (sectionTrashItem item), StoreOp.opDeleteItem item.id]),
      rfl, ?_⟩
    intro op hop
    rcases List.mem_flatMap.mp hop with ⟨it, _, hin⟩
    rcases List.mem_cons.mp hin with h1 | h2
    · subst h1
      simp
    · rcases List.mem_cons.mp h2 with h1 | h3
      · subst h1
        simp
      · cases h3

/-- A store with custom section 5, one item in it (id 1) and one `tops`
item (id 2). -/
def C7store : Store :=
  { items := [⟨1, some 11, "custom-5", false, false, "2024-01-01", false, none, none⟩,
              ⟨2, some 12, "tops", false, false, "2024-01-01", false, none, none⟩],
    images := [⟨11, "a"⟩, ⟨12, "b"⟩], weeklyPlan := [], savedOutfits := [],
    customSections := [⟨5, "Hats", []⟩], shoppingList := [], trash := [],
    settings := [] }

/-- Witness for `C7_delete_section_cascade`: deleting section 5 moves item
1 to trash (deleted, `originalCategory` recorded), removes it from the
active items, and removes the section record. -/
theorem C7_delete_section_cascade_witness :
    recGet Item.id (App.deleteSection C7store 5).trash 1
      = some ⟨1, some 11, "custom-5", false, false, "2024-01-01", true, none,
          some "custom-5"⟩ ∧
    recGet Item.id (App.deleteSection C7store 5).items 1 = none ∧
    recGet CustomSection.id (App.deleteSection C7store 5).customSections 5 = none := by
  have h := C7_delete_section_cascade C7store 5 (by decide)
  have h1 := h.1 ⟨1, some 11, "custom-5", false, false, "2024-01-01", false, none, none⟩
    (by decide) (by decide)
  exact ⟨h1.1, h1.2, h.2.2.1⟩

/-!
## C9 — weather cache
-/

/-- C9: with a truthy, fresh (< 30 min old) cached value, `fetchWeather`
returns the cached payload without fetching and leaves settings alone;
with a missing or stale cache it fetches, and on success returns the fresh
data and stores it under `weatherCache` with the current timestamp; on
fetch failure with a truthy (stale) cache it returns the stale cached
payload instead of propagating the error. -/
theorem C9_fetch_weather_cache (st : SettingsStore) (now : Int)
    (fetchResult : Except Unit JSValue) :
    ((jsTruthy (Storage.getSetting st "weatherCache" JSValue.null)
        && cacheIsFresh (Storage.getSetting st "weatherCache" JSValue.null) now) = true →
      Weather.fetchWeather st now fetchResult
        = { result := Except.ok
              (jsField (Storage.getSetting st "weatherCache" JSValue.null) "data")
            settings := st
            fetched := false }) ∧
    (¬ ((jsTruthy (Storage.getSetting st "weatherCache" JSValue.null)
        && cacheIsFresh (Storage.getSetting st "weatherCache" JSValue.null) now) = true) →
      ∀ d, fetchResult = Except.ok d →
        Weather.fetchWeather st now fetchResult
          = { result := Except.ok d
              settings := Storage.setSetting st "weatherCache"
                (JSValue.obj [("data", d), ("timestamp", JSValue.num now)])
              fetched := true }) ∧
    (¬ ((jsTruthy (Storage.getSetting st "weatherCache" JSValue.null)
        && cacheIsFresh (Storage.getSetting st "weatherCache" JSValue.null) now) = true) →
      jsTruthy (Storage.getSetting st "weatherCache" JSValue.null) = true →
      ∀ e, fetchResult = Except.error e →
        Weather.fetchWeather st now fetchResult
          = { result := Except.ok
                (jsField (Storage.getSetting st "weatherCache" JSValue.null) "data")
              settings := st
              fetched := true }) := by
  refine ⟨fun h => ?_, fun h d hd => ?_, fun h ht e he => ?_⟩
  · simp only [Weather.fetchWeather]
    rw [if_pos h]
  · subst hd
    simp only [Weather.fetchWeather]
    rw [if_neg h]
  · subst he
    simp only [Weather.fetchWeather]
    rw [if_neg h]
    show (if jsTruthy (Storage.getSetting st "weatherCache" JSValue.null) then
        ({ result := Except.ok (jsField (Storage.getSetting st "weatherCache" JSValue.null) "data"), settings := st, fetched := true } : FetchOutcome)
      else ({ result := Except.error e, settings := st, fetched := true } : FetchOutcome)) = _
    rw [if_pos ht]

/-- localStorage holding a weather cache written at time 100. -/
def C9cacheStore : SettingsStore :=
  Storage.setSetting [] "weatherCache"
    (JSValue.obj [("data", JSValue.str "W"), ("timestamp", JSValue.num 100)])

/-- Witness for `C9_fetch_weather_cache`: at time 1000 the cache is fresh
(no fetch, cached payload returned even though the network would fail); on
an empty store the fetch result is returned and cached with the current
timestamp; at time 2000000 the cache is stale and, the fetch failing, the
stale payload is returned. -/
theorem C9_fetch_weather_cache_witness :
    Weather.fetchWeather C9cacheStore 1000 (Except.error ())
      = { result := Except.ok (JSValue.str "W"), settings := C9cacheStore,
          fetched := false } ∧
    Weather.fetchWeather [] 1000 (Except.ok (JSValue.str "F"))
      = { result := Except.ok (JSValue.str "F")
          settings := Storage.setSetting [] "weatherCache"
            (JSValue.obj [("data", JSValue.str "F"), ("timestamp", JSValue.num 1000)])
          fetched := true } ∧
    Weather.fetchWeather C9cacheStore 2000000 (Except.error ())
      = { result := Except.ok (JSValue.str "W"), settings := C9cacheStore,
          fetched := true } := by
  refine ⟨?_, ?_, ?_⟩
  · exact (C9_fetch_weather_cache C9cacheStore 1000 (Except.error ())).1 (by decide)
  · exact (C9_fetch_weather_cache [] 1000 (Except.ok (JSValue.str "F"))).2.1
      (by decide) (JSValue.str "F") rfl
  · exact (C9_fetch_weather_cache C9cacheStore 2000000 (Except.error ())).2.2
      (by decide) (by decide) () rfl

/-!
## C5 — importAllData version gate and insertion order
-/

theorem mem_ite_singleton {c : Prop} [Decidable c] {op x : StoreOp}
    (h : op ∈ (if c then [x] else [])) : op = x := by
  by_cases hc : c
  · rw [if_pos hc] at h
    exact List.mem_singleton.mp h
  · rw [if_neg hc] at h
    cases h

theorem mem_settingsOps (stg : SettingsDoc) (op : StoreOp) (h : op ∈ settingsOps stg) :
    ∃ k v, op = StoreOp.opSetSetting k v := by
  unfold settingsOps at h
  rcases List.mem_append.mp h with h | h4
  · rcases List.mem_append.mp h with h | h3
    · rcases List.mem_append.mp h with h1 | h2
      · exact ⟨"userName", stg.userName, mem_ite_singleton h1⟩
      · exact ⟨"theme", stg.theme, mem_ite_singleton h2⟩
    · exact ⟨"location", stg.location, mem_ite_singleton h3⟩
  · exact ⟨"tempUnit", stg.tempUnit, mem_ite_singleton h4⟩

theorem applyStoreOp_trash_of_save (st : Store) (op : StoreOp)
    (h1 : ¬ op = StoreOp.clearAll) (h2 : ∀ it, ¬ op = StoreOp.opSaveToTrash it) :
    (applyStoreOp st op).trash = st.trash := by
  cases op with
  | clearAll => exact absurd rfl h1
  | opSaveToTrash it => exact absurd rfl (h2 it)
  | opSaveImage id data => rfl
  | opSaveItem item => rfl
  | opSaveWeeklyDay dayData => rfl
  | opSaveOutfit outfit => rfl
  | opSaveCustomSection section' => rfl
  | opSaveShoppingItem item => rfl
  | opDeleteItem id => rfl
  | opDeleteCustomSection id => rfl
  | opSetSetting key value => rfl

theorem import_tail_op_shape (d : ExportDoc) (op : StoreOp)
    (hop : op ∈ ((d.images.getD []).map (fun img => StoreOp.opSaveImage img.id img.data)
      ++ (d.items.getD []).map StoreOp.opSaveItem
      ++ (d.weeklyPlan.getD []).map StoreOp.opSaveWeeklyDay
      ++ (d.savedOutfits.getD []).map StoreOp.opSaveOutfit
      ++ (d.customSections.getD []).map StoreOp.opSaveCustomSection
      ++ (d.shoppingList.getD []).map StoreOp.opSaveShoppingItem
      ++ (match d.settings with | some stg => settingsOps stg | none => []))) :
    (¬ op = StoreOp.clearAll) ∧ (∀ it, ¬ op = StoreOp.opSaveToTrash it) := by
  rcases List.mem_append.mp hop with h | hset
  · rcases List.mem_append.mp h with h | hshop
    · rcases List.mem_append.mp h with h | hsec
      · rcases List.mem_append.mp h with h | hout
        · rcases List.mem_append.mp h with h | hplan
          · rcases List.mem_append.mp h with himg | hitem
            · rcases List.mem_map.mp himg with ⟨x, _, rfl⟩
              exact ⟨by simp, fun it => by simp⟩
            · rcases List.mem_map.mp hitem with ⟨x, _, rfl⟩
              exact ⟨by simp, fun it => by simp⟩
          · rcases List.mem_map.mp hplan with ⟨x, _, rfl⟩
            exact ⟨by simp, fun it => by simp⟩
        · rcases List.mem_map.mp hout with ⟨x, _, rfl⟩
          exact ⟨by simp, fun it => by simp⟩
      · rcases List.mem_map.mp hsec with ⟨x, _, rfl⟩
        exact ⟨by simp, fun it => by simp⟩
    · rcases List.mem_map.mp hshop with ⟨x, _, rfl⟩
      exact ⟨by simp, fun it => by simp⟩
  · cases hds : d.settings with
    | none =>
      rw [hds] at hset
      cases hset
    | some stg =>
      rw [hds] at hset
      rcases mem_settingsOps stg op hset with ⟨k, v, rfl⟩
      exact ⟨by simp, fun it => by simp⟩

theorem trash_foldl_of_shapes (ops : List StoreOp) (s : Store)
    (h : ∀ op ∈ ops, (¬ op = StoreOp.clearAll) ∧ (∀ it, ¬ op = StoreOp.opSaveToTrash it)) :
    (ops.foldl applyStoreOp s).trash = s.trash := by
  induction ops generalizing s with
  | nil => rfl
  | cons op ops ih =>
    rw [List.foldl_cons, ih _ (fun o ho => h o (List.mem_cons_of_mem _ ho)),
      applyStoreOp_trash_of_save s op (h op (List.mem_cons_self _ _)).1
        (h op (List.mem_cons_self _ _)).2]

/-- C5: a falsy document or a version tag other than 1 makes
`importAllData` throw `Invalid data format` before any store call (the
issued call trace is an error, so no collection or setting is mutated);
with version 1 the issued calls are exactly: clear all collections, then
save images, then items, then the weekly plan, then saved outfits, then
custom sections, then the shopping list — in that order — then set the
truthy settings of the curated subset; and the resulting store exists and
has an empty trash (cleared, never re-populated by the import). -/
theorem C5_import_version_gate_and_order (data : Option ExportDoc) (s : Store) :
    ((data = none ∨ ∃ d, data = some d ∧ ¬ d.version = some 1) →
      Storage.importTrace data = Except.error "Invalid data format" ∧
      Storage.importAllData data s = Except.error "Invalid data format") ∧
    (∀ d, data = some d → d.version = some 1 →
      Storage.importTrace data = Except.ok (StoreOp.clearAll ::
        ((d.images.getD []).map (fun img => StoreOp.opSaveImage img.id img.data)
        ++ (d.items.getD []).map StoreOp.opSaveItem
        ++ (d.weeklyPlan.getD []).map StoreOp.opSaveWeeklyDay
        ++ (d.savedOutfits.getD []).map StoreOp.opSaveOutfit
        ++ (d.customSections.getD []).map StoreOp.opSaveCustomSection
        ++ (d.shoppingList.getD []).map StoreOp.opSaveShoppingItem
        ++ (match d.settings with | some stg => settingsOps stg | none => []))) ∧
      ∃ s', Storage.importAllData data s = Except.ok s' ∧ s'.trash = []) := by
  constructor
  · intro herr
    have htr : Storage.importTrace data = Except.error "Invalid data format" := by
      rcases herr with rfl | ⟨d, rfl, hv⟩
      · rfl
      · unfold Storage.importTrace
        simp only []
        rw [if_pos hv]
    refine ⟨htr, ?_⟩
    unfold Storage.importAllData
    rw [htr]
    rfl
  · intro d hd hv
    subst hd
    have htr : Storage.importTrace (some d) = Except.ok (StoreOp.clearAll ::
        ((d.images.getD []).map (fun img => StoreOp.opSaveImage img.id img.data)
        ++ (d.items.getD []).map StoreOp.opSaveItem
        ++ (d.weeklyPlan.getD []).map StoreOp.opSaveWeeklyDay
        ++ (d.savedOutfits.getD []).map StoreOp.opSaveOutfit
        ++ (d.customSections.getD []).map StoreOp.opSaveCustomSection
        ++ (d.shoppingList.getD []).map StoreOp.opSaveShoppingItem
        ++ (match d.settings with | some stg => settingsOps stg | none => []))) := by
      unfold Storage.importTrace
      simp only []
      rw [if_neg (not_not_intro hv)]
    refine ⟨htr, (StoreOp.clearAll ::
        ((d.images.getD []).map (fun img => StoreOp.opSaveImage img.id img.data)
        ++ (d.items.getD []).map StoreOp.opSaveItem
        ++ (d.weeklyPlan.getD []).map StoreOp.opSaveWeeklyDay
        ++ (d.savedOutfits.getD []).map StoreOp.opSaveOutfit
        ++ (d.customSections.getD []).map StoreOp.opSaveCustomSection
        ++ (d.shoppingList.getD []).map StoreOp.opSaveShoppingItem
        ++ (match d.settings with | some stg => settingsOps stg | none => []))).foldl
        applyStoreOp s, ?_, ?_⟩
    · unfold Storage.importAllData
      rw [htr]
      rfl
    · rw [List.foldl_cons]
      exact trash_foldl_of_shapes _ _ (fun op hop => import_tail_op_shape d op hop)

/-- A document with a wrong schema version. -/
def C5baddoc : ExportDoc :=
  { version := some 2, exportDate := "2026-01-01", items := none, images := none,
    weeklyPlan := none, savedOutfits := none, customSections := none,
    shoppingList := none, settings := none }

/-- A version-1 document with one image and one item. -/
def C5gooddoc : ExportDoc :=
  { version := some 1, exportDate := "2026-01-01",
    items := some [⟨1, some 11, "tops", false, false, "2024-01-01", false, none, none⟩],
    images := some [⟨11, "img"⟩],
    weeklyPlan := none, savedOutfits := none, customSections := none,
    shoppingList := none, settings := none }

/-- Witness for `C5_import_version_gate_and_order`: a missing document and
a version-2 document both fail with no call issued; the version-1 document
issues clear-then-image-then-item and yields a store with empty trash. -/
theorem C5_import_version_gate_and_order_witness :
    Storage.importAllData (none : Option ExportDoc) C1store
      = Except.error "Invalid data format" ∧
    Storage.importAllData (some C5baddoc) C1store = Except.error "Invalid data format" ∧
    Storage.importTrace (some C5gooddoc)
      = Except.ok [StoreOp.clearAll, StoreOp.opSaveImage 11 "img",
          StoreOp.opSaveItem ⟨1, some 11, "tops", false, false, "2024-01-01",
            false, none, none⟩] ∧
    ∃ s', Storage.importAllData (some C5gooddoc) C1store = Except.ok s' ∧
      s'.trash = [] := by
  refine ⟨((C5_import_version_gate_and_order none C1store).1 (Or.inl rfl)).2,
    ((C5_import_version_gate_and_order (some C5baddoc) C1store).1
      (Or.inr ⟨C5baddoc, rfl, by decide⟩)).2, ?_, ?_⟩
  · exact ((C5_import_version_gate_and_order (some C5gooddoc) C1store).2
      C5gooddoc rfl rfl).1
  · obtain ⟨s', h1, h2⟩ := ((C5_import_version_gate_and_order (some C5gooddoc) C1store).2
      C5gooddoc rfl rfl).2
    exact ⟨s', h1, h2⟩

/-!
## C6 — export/import round trip
-/

/-- The failing store for C6: an empty wardrobe, one shopping entry (id 9)
referencing image 5, which is present. -/
def C6store : Store :=
  { items := [], images := [⟨5, "shoppic"⟩], weeklyPlan := [], savedOutfits := [],
    customSections := [], shoppingList := [⟨9, "Sneakers", "", "", some 5⟩],
    trash := [], settings := [] }

/-- C6, divergence: `exportAllData` walks only `data.items` when inlining
image data, so a shopping entry's image is not exported; `importAllData`
then clears the image store and re-inserts only the exported images.  The
round trip therefore keeps the shopping entry but loses its image record —
the round-tripped store is not equivalent "(including shopping items'
images)" as the claim states. -/
theorem C6_roundtrip_loses_shopping_image :
    ∃ s', Storage.importAllData (some (Storage.exportAllData C6store "2026-01-01")) C6store
        = Except.ok s' ∧
      recGet ShopItem.id s'.shoppingList 9 = some ⟨9, "Sneakers", "", "", some 5⟩ ∧
      recGet Image.id s'.images 5 = none ∧
      recGet Image.id C6store.images 5 = some ⟨5, "shoppic"⟩ ∧
      (Storage.exportAllData C6store "2026-01-01").images = some [] := by
  refine ⟨_, rfl, ?_, ?_, ?_, ?_⟩
  · decide
  · decide
  · decide
  · decide
